import Mathlib

/-!
Verification of the mycoroutine cooperative-concurrency runtime.

Shallow embedding of the timer module (`timer.cpp`), the IOManager event
bookkeeping (`fd_manager.h`), the fiber constructor (`utils.h`), and the
syscall-interposition layer (`hook.cpp`).  Time points are modelled as
integers counting nanoseconds, matching `std::chrono::system_clock` on
Linux whose representation is a 64-bit nanosecond count.
-/

namespace Mycoroutine

/-- The value of `std::chrono::milliseconds(ms)` in nanoseconds. -/
def msToNs (ms : Nat) : Int := (ms : Int) * 1000000

/-- The `~0ull` sentinel returned by `TimerManager::getNextTimer`. -/
def UINT64MAX : Nat := 18446744073709551615

/--
`Timer` (timer.cpp / timer.h): `m_recurring`, `m_ms`, `m_next`, `m_cb`.
`tid` stands for the identity of the `shared_ptr<Timer>` handle; `cb` is a
token naming the stored callable, `none` modelling a null
`std::function`.
-/
structure Timer where
  tid : Nat
  recurring : Bool
  ms : Nat
  next : Int
  cb : Option Nat
deriving Repr, DecidableEq

/--
`Timer::Comparator::operator()` (timer.cpp:144): compares only
`lhs->m_next < rhs->m_next`; there is no tie-break of any kind.
-/
def timerLt (lhs rhs : Timer) : Bool := lhs.next < rhs.next

/-- Two timers are equivalent for the `std::set` iff neither is less. -/
def timerEquiv (a b : Timer) : Bool := !timerLt a b && !timerLt b a

/--
`std::set::insert` under `Timer::Comparator`: keeps the list sorted by
`m_next`; an element equivalent to an existing one (equal `m_next`) is
NOT inserted, and the returned flag is false.
-/
def setInsert (t : Timer) : List Timer → List Timer × Bool
  | [] => ([t], true)
  | u :: rest =>
    if timerLt t u then (t :: u :: rest, true)
    else if timerLt u t then
      let (r, b) := setInsert t rest
      (u :: r, b)
    else (u :: rest, false)

/--
`std::set::find` under `Timer::Comparator`: returns the element
equivalent to `t`, i.e. the member with the same `m_next` — which need
not be `t` itself.
-/
def setFind (t : Timer) (s : List Timer) : Option Timer :=
  s.find? (fun u => timerEquiv t u)

/-- Erasing the element that `setFind t` located (first equivalent). -/
def setEraseEquiv (t : Timer) : List Timer → List Timer
  | [] => []
  | u :: rest => if timerEquiv t u then rest else u :: setEraseEquiv t rest

/--
`TimerManager` state: the ordered timer set `m_timers` (list in set
order), the `m_tickled` flag and `m_previouseTime`.
-/
structure TimerManager where
  timers : List Timer
  tickled : Bool
  previousTime : Int
deriving Repr, DecidableEq

/--
The `Timer` constructor (timer.cpp:129): `m_next = now + milliseconds(ms)`.
-/
def Timer.create (tid ms cbTok : Nat) (recurring : Bool) (now : Int) : Timer :=
  { tid := tid, recurring := recurring, ms := ms, next := now + msToNs ms, cb := some cbTok }

/--
`TimerManager::addTimer(std::shared_ptr<Timer>)` (timer.cpp:316): insert
into the set; `at_front` holds iff the iterator returned by `insert`
(pointing at the element equivalent to `timer`, inserted or
pre-existing) is `begin()` and `m_tickled` was still false; in that case
`m_tickled` is set and `onTimerInsertedAtFront` fires (second result).
-/
def TimerManager.addTimerP (m : TimerManager) (t : Timer) : TimerManager × Bool :=
  let s := (setInsert t m.timers).1
  let atFront :=
    (match s.head? with
     | some u => timerEquiv t u
     | none => false) && !m.tickled
  ({ m with timers := s, tickled := m.tickled || atFront }, atFront)

/--
`TimerManager::addTimer(ms, cb, recurring)` (timer.cpp:179): creates the
timer at `now` and adds it through the private `addTimer`.
-/
def TimerManager.addTimer (m : TimerManager) (now : Int) (tid ms cbTok : Nat)
    (recurring : Bool) : TimerManager × Timer :=
  let t := Timer.create tid ms cbTok recurring now
  ((m.addTimerP t).1, t)

/--
`Timer::cancel` (timer.cpp:19): if `m_cb` is null return false; else
null `m_cb`, then `find(shared_from_this())` — which locates the member
with equal `m_next`, not necessarily this timer — and erase it if found.
Returns the updated self and manager.
-/
def Timer.cancel (self : Timer) (m : TimerManager) : Bool × Timer × TimerManager :=
  if self.cb = none then (false, self, m)
  else
    let self' := { self with cb := none }
    match setFind self m.timers with
    | some _ => (true, self', { m with timers := setEraseEquiv self m.timers })
    | none => (true, self', m)

/--
`Timer::refresh` (timer.cpp:48): fail if `m_cb` null or not found; else
erase the found member, set `m_next = now + m_ms`, and re-insert via a
plain `m_timers.insert` (no tickle logic).
-/
def Timer.refresh (self : Timer) (now : Int) (m : TimerManager) :
    Bool × Timer × TimerManager :=
  if self.cb = none then (false, self, m)
  else
    match setFind self m.timers with
    | none => (false, self, m)
    | some _ =>
      let s := setEraseEquiv self m.timers
      let self' := { self with next := now + msToNs self.ms }
      (true, self', { m with timers := (setInsert self' s).1 })

/--
`Timer::reset(ms, from_now)` (timer.cpp:82): if `ms == m_ms && !from_now`
return true at once (before any other check); else fail when `m_cb` is
null or the timer is not found; else erase the found member, recompute
`m_ms`/`m_next` from `start = from_now ? now : m_next - old m_ms`, and
re-add through `TimerManager::addTimer` (tickle logic included).
-/
def Timer.reset (self : Timer) (now : Int) (ms : Nat) (from_now : Bool)
    (m : TimerManager) : Bool × Timer × TimerManager :=
  if ms = self.ms ∧ from_now = false then (true, self, m)
  else if self.cb = none then (false, self, m)
  else
    match setFind self m.timers with
    | none => (false, self, m)
    | some _ =>
      let s := setEraseEquiv self m.timers
      let start := if from_now then now else self.next - msToNs self.ms
      let self' := { self with ms := ms, next := start + msToNs ms }
      (true, self', ({ m with timers := s }.addTimerP self').1)

/--
`TimerManager::getNextTimer` (timer.cpp:225): clears `m_tickled`; empty
set yields `~0ull`; a due head timer yields 0; otherwise the result is
`duration_cast<milliseconds>(time - now)`, i.e. the whole-millisecond
floor of the time left.
-/
def TimerManager.getNextTimer (m : TimerManager) (now : Int) : Nat × TimerManager :=
  let m' := { m with tickled := false }
  match m.timers.head? with
  | none => (UINT64MAX, m')
  | some t =>
    if t.next ≤ now then (0, m')
    else ((t.next - now).toNat / 1000000, m')

/--
`TimerManager::detectClockRollover` (timer.cpp:346): rollover iff
`now < m_previouseTime - milliseconds(60*60*1000)`; always updates
`m_previouseTime` to `now`.
-/
def TimerManager.detectClockRollover (m : TimerManager) (now : Int) :
    Bool × TimerManager :=
  (decide (now < m.previousTime - msToNs 3600000), { m with previousTime := now })

/--
The while-loop of `TimerManager::listExpiredCb` (timer.cpp:275): while
the set is non-empty and (`rollover` or the head is due) pop the head,
append its callable, and re-insert recurring timers at `now + m_ms`
(non-recurring ones get their callable nulled on the popped object).
`fuel` bounds the number of iterations the model executes; the third
result is true iff the loop exited by its own condition within `fuel`
iterations.
-/
def listExpiredLoop (now : Int) (rollover : Bool) :
    Nat → List Timer → List (Option Nat) → List Timer × List (Option Nat) × Bool
  | 0, s, acc => (s, acc, false)
  | fuel + 1, s, acc =>
    match s with
    | [] => ([], acc, true)
    | t :: rest =>
      if rollover || decide (t.next ≤ now) then
        let acc' := acc ++ [t.cb]
        if t.recurring then
          listExpiredLoop now rollover fuel (setInsert { t with next := now + msToNs t.ms } rest).1 acc'
        else
          listExpiredLoop now rollover fuel rest acc'
      else (s, acc, true)

/--
`TimerManager::listExpiredCb` (timer.cpp:262): detect rollover (updating
`m_previouseTime`), then run the drain loop. Results: updated manager,
the collected callables, and whether the loop terminated within `fuel`
iterations.
-/
def TimerManager.listExpiredCb (m : TimerManager) (now : Int) (fuel : Nat) :
    TimerManager × List (Option Nat) × Bool :=
  let (rollover, m₁) := m.detectClockRollover now
  let (s, cbs, done) := listExpiredLoop now rollover fuel m₁.timers []
  ({ m₁ with timers := s }, cbs, done)

/--
The `Fiber` constructor (utils.h:221): `m_stacksize = stacksize ?
stacksize : 128000`; the initial state is READY.
-/
def fiberStackSize (stacksize : Nat) : Nat :=
  if stacksize ≠ 0 then stacksize else 128000

/-! ## IOManager event bookkeeping (fd_manager.h / iomanager.h) -/

/-- `IOManager::Event` values: `READ = 0x1`, `WRITE = 0x4` (iomanager.h). -/
def EV_READ : Nat := 1

/-- `WRITE = 0x4` (iomanager.h). -/
def EV_WRITE : Nat := 4

/-- `EPOLLET`, the edge-triggered flag OR-ed into every registration. -/
def EPOLLET : Nat := 2147483648

/-- The opposite direction of a READ/WRITE event. -/
def otherEvent (ev : Nat) : Nat := if ev = EV_READ then EV_WRITE else EV_READ

/-- Clearing the bits of `b` from `mask`, i.e. `mask & ~b` on machine words. -/
def clearBits (mask b : Nat) : Nat := mask - (mask &&& b)

/--
`IOManager::FdContext::EventContext`: the scheduler that registered the
event and either a fiber or a callback, each modelled as an optional
token (`none` = null).
-/
structure EventContext where
  scheduler : Option Nat
  fiber : Option Nat
  cb : Option Nat
deriving Repr, DecidableEq

/-- The all-null slot produced by `resetEventContext` (fd_manager.h:246). -/
def EventContext.empty : EventContext := ⟨none, none, none⟩

/-- A slot is populated when it holds a scheduler plus a fiber or a callback. -/
def EventContext.isPopulated (e : EventContext) : Bool :=
  e.scheduler.isSome && (e.fiber.isSome || e.cb.isSome)

/-- `IOManager::FdContext`: the `events` bitset and the two slots. -/
structure FdContext where
  events : Nat
  read : EventContext
  write : EventContext
deriving Repr, DecidableEq

/-- `FdContext::getEventContext` (fd_manager.h:225) for `READ`/`WRITE`. -/
def FdContext.getCtx (c : FdContext) (ev : Nat) : EventContext :=
  if ev = EV_READ then c.read else c.write

/-- Writing back the slot selected by `getEventContext`. -/
def FdContext.setCtx (c : FdContext) (ev : Nat) (e : EventContext) : FdContext :=
  if ev = EV_READ then { c with read := e } else { c with write := e }

/--
The state one `FdContext` contributes to its `IOManager`: the context
itself, this fd's share of `m_pendingEventCount`, its registration mask
in the readiness facility (`none` = not registered), and the parties
scheduled so far via `scheduleLock` (in order; `none` = a null party).
-/
structure IOMState where
  ctx : FdContext
  pending : Nat
  epollReg : Option Nat
  scheduled : List (Option Nat)
deriving Repr, DecidableEq

/--
The party `triggerEvent` schedules: the slot's callback when present,
else its fiber (fd_manager.h:268-277).
-/
def partyOf (e : EventContext) : Option Nat :=
  match e.cb with
  | some x => some x
  | none => e.fiber

/--
`FdContext::triggerEvent` (fd_manager.h:259): clear the event bit,
schedule the slot's callback if present else its fiber, reset the slot.
Callers must hold `events & event != 0` (the assert).
-/
def IOMState.triggerEvent (st : IOMState) (ev : Nat) : IOMState :=
  let slot := st.ctx.getCtx ev
  let party := partyOf slot
  { st with
    ctx := { st.ctx.setCtx ev EventContext.empty with events := clearBits st.ctx.events ev },
    scheduled := st.scheduled ++ [party] }

/--
`IOManager::addEvent` (fd_manager.h:367): fail with -1 when the event is
already registered or when the `epoll_ctl` update (success supplied by
the `epOk` oracle) fails, touching nothing; otherwise bump the pending
counter, OR the bit into `events`, register `EPOLLET | events | event`
with the facility, and populate the slot with the current scheduler plus
the given callback, or the current fiber when no callback is given.
-/
def IOMState.addEvent (st : IOMState) (ev : Nat) (cb : Option Nat)
    (curSched curFiber : Nat) (epOk : Bool) : Int × IOMState :=
  if st.ctx.events &&& ev ≠ 0 then (-1, st)
  else if epOk = false then (-1, st)
  else
    let slot := st.ctx.getCtx ev
    let slot' := match cb with
      | some f => { slot with scheduler := some curSched, cb := some f }
      | none => { slot with scheduler := some curSched, fiber := some curFiber }
    (0, { st with
      pending := st.pending + 1,
      epollReg := some (EPOLLET ||| st.ctx.events ||| ev),
      ctx := { st.ctx.setCtx ev slot' with events := st.ctx.events ||| ev } })

/--
`IOManager::delEvent` (fd_manager.h:442): false when the event is not
armed; when `epoll_ctl` fails the code does `return -1`, which converts
to `true`, leaving all state untouched; otherwise decrement the pending
counter, clear the bit, update or drop the facility registration, and
reset the slot without scheduling anything.
-/
def IOMState.delEvent (st : IOMState) (ev : Nat) (epOk : Bool) : Bool × IOMState :=
  if st.ctx.events &&& ev = 0 then (false, st)
  else if epOk = false then (true, st)
  else
    let newEvents := clearBits st.ctx.events ev
    (true, { st with
      pending := st.pending - 1,
      epollReg := if newEvents ≠ 0 then some (EPOLLET ||| newEvents) else none,
      ctx := { st.ctx.setCtx ev EventContext.empty with events := newEvents } })

/--
`IOManager::cancelEvent` (fd_manager.h:499): as `delEvent`, but instead
of silently resetting the slot it decrements the counter and fires
`triggerEvent`, scheduling the slot's party.
-/
def IOMState.cancelEvent (st : IOMState) (ev : Nat) (epOk : Bool) : Bool × IOMState :=
  if st.ctx.events &&& ev = 0 then (false, st)
  else if epOk = false then (true, st)
  else
    let newEvents := clearBits st.ctx.events ev
    let st₁ := { st with
      pending := st.pending - 1,
      epollReg := if newEvents ≠ 0 then some (EPOLLET ||| newEvents) else none }
    (true, st₁.triggerEvent ev)

/--
`IOManager::cancelAll` (fd_manager.h:551): false when no event is armed;
on facility failure `return -1` converts to `true` with no state change;
otherwise deregister the fd and fire each armed direction, decrementing
the counter per direction.
-/
def IOMState.cancelAll (st : IOMState) (epOk : Bool) : Bool × IOMState :=
  if st.ctx.events = 0 then (false, st)
  else if epOk = false then (true, st)
  else
    let st₁ := { st with epollReg := none }
    let st₂ :=
      if st₁.ctx.events &&& EV_READ ≠ 0 then
        let u := st₁.triggerEvent EV_READ
        { u with pending := u.pending - 1 }
      else st₁
    let st₃ :=
      if st₂.ctx.events &&& EV_WRITE ≠ 0 then
        let u := st₂.triggerEvent EV_WRITE
        { u with pending := u.pending - 1 }
      else st₂
    (true, st₃)

/-- The bitset invariant claimed of every `FdContext`. -/
def eventsSlotsAgree (st : IOMState) : Prop :=
  (st.ctx.events &&& EV_READ ≠ 0 ↔ st.ctx.read.isPopulated = true) ∧
  (st.ctx.events &&& EV_WRITE ≠ 0 ↔ st.ctx.write.isPopulated = true)

/-- The `events` bitset only ever holds the READ and WRITE bits. -/
def eventsWF (st : IOMState) : Prop :=
  st.ctx.events = 0 ∨ st.ctx.events = 1 ∨ st.ctx.events = 4 ∨ st.ctx.events = 5

/-! ## Syscall interposition layer (hook.cpp) -/

/-- Linux `O_NONBLOCK` (0o4000). -/
def O_NONBLOCK : Nat := 2048

/-- `errno` value `ETIMEDOUT` on Linux. -/
def ETIMEDOUT : Nat := 110

/-- `errno` value `EAGAIN` on Linux. -/
def EAGAIN : Nat := 11

/-- `errno` value `EBADF` on Linux. -/
def EBADF : Nat := 9

/-- `SO_RCVTIMEO` on Linux. -/
def SO_RCVTIMEO : Nat := 20

/-- `SO_SNDTIMEO` on Linux. -/
def SO_SNDTIMEO : Nat := 21

/-- `SOL_SOCKET` on Linux. -/
def SOL_SOCKET : Nat := 1

/--
`FdCtx` (fd_manager.h): the per-descriptor flags and per-direction
timeouts consulted by the interposed calls.
-/
structure FdCtx where
  isSocket : Bool
  sysNonblock : Bool
  userNonblock : Bool
  isClosed : Bool
  recvTimeout : Nat
  sendTimeout : Nat
deriving Repr, DecidableEq

/-- `FdCtx::getTimeout` (fdmanager.cpp). -/
def FdCtx.getTimeout (c : FdCtx) (type : Nat) : Nat :=
  if type = SO_RCVTIMEO then c.recvTimeout else c.sendTimeout

/-- `FdCtx::setTimeout` (fdmanager.cpp). -/
def FdCtx.setTimeout (c : FdCtx) (type : Nat) (v : Nat) : FdCtx :=
  if type = SO_RCVTIMEO then { c with recvTimeout := v } else { c with sendTimeout := v }

/-- The three ways the front of `do_io` can dispatch an operation. -/
inductive DoIoAction where
  | passRaw
  | badf
  | managed (timeout : Nat)
deriving Repr, DecidableEq

/--
The dispatch prefix of `do_io` (hook.cpp:117-150): raw pass-through when
the hook is disabled or no `FdCtx` exists; `EBADF` when the context is
closed; raw pass-through when the fd is not a socket or the user set
non-blocking; otherwise the managed path with the per-direction timeout.
-/
def doIoDispatch (hookEnabled : Bool) (ctx : Option FdCtx) (timeoutSo : Nat) : DoIoAction :=
  if hookEnabled = false then .passRaw
  else
    match ctx with
    | none => .passRaw
    | some c =>
      if c.isClosed then .badf
      else if !c.isSocket || c.userNonblock then .passRaw
      else .managed (c.getTimeout timeoutSo)

/-- How an interposed sleep-family call behaves. -/
inductive SleepBehavior where
  | raw
  | hooked (timerMs : Nat)
deriving Repr, DecidableEq

/-- `sleep` (hook.cpp:240): raw when disabled, else a timer of `seconds*1000` ms plus yield. -/
def sleepHook (hookEnabled : Bool) (seconds : Nat) : SleepBehavior :=
  if hookEnabled = false then .raw else .hooked (seconds * 1000)

/-- `usleep` (hook.cpp:265): raw when disabled, else a timer of `usec/1000` ms plus yield. -/
def usleepHook (hookEnabled : Bool) (usec : Nat) : SleepBehavior :=
  if hookEnabled = false then .raw else .hooked (usec / 1000)

/-- `nanosleep` (hook.cpp:291): raw when disabled, else a timer of `sec*1000 + nsec/1000/1000` ms. -/
def nanosleepHook (hookEnabled : Bool) (sec nsec : Nat) : SleepBehavior :=
  if hookEnabled = false then .raw else .hooked (sec * 1000 + nsec / 1000 / 1000)

/-- The dispatch outcomes of `connect_with_timeout`. -/
inductive ConnectAction where
  | passRaw
  | badf
  | managed
deriving Repr, DecidableEq

/--
The dispatch prefix of `connect_with_timeout` (hook.cpp:350-376): raw
when the hook is disabled; `EBADF` when no context or closed; raw when
not a socket or user non-blocking; else the managed path.
-/
def connectDispatch (hookEnabled : Bool) (ctx : Option FdCtx) : ConnectAction :=
  if hookEnabled = false then .passRaw
  else
    match ctx with
    | none => .badf
    | some c =>
      if c.isClosed then .badf
      else if !c.isSocket then .passRaw
      else if c.userNonblock then .passRaw
      else .managed

/--
`setsockopt` (hook.cpp:846): raw pass-through when the hook is disabled;
otherwise `SO_RCVTIMEO`/`SO_SNDTIMEO` at `SOL_SOCKET` store the duration
in ms in the context before forwarding. Result: the updated context (the
raw call is always forwarded).
-/
def setsockoptHook (hookEnabled : Bool) (level optname : Nat) (ctx : Option FdCtx)
    (tvSec tvUsec : Nat) : Option FdCtx :=
  if hookEnabled = false then ctx
  else if level = SOL_SOCKET ∧ (optname = SO_RCVTIMEO ∨ optname = SO_SNDTIMEO) then
    match ctx with
    | some c => some (c.setTimeout optname (tvSec * 1000 + tvUsec / 1000))
    | none => ctx
  else ctx

/--
The `F_SETFL` arm of the interposed `fcntl` (hook.cpp:682-705). The
source performs NO hook-enable check, so the flag parameter is unused.
Result: the argument passed on to the raw `fcntl_f` and the updated
context. When a live socket context exists, `user_nonblock` is recorded
from `arg & O_NONBLOCK` and the bit handed to the kernel is rewritten
from `sys_nonblock`.
-/
def fcntlSetfl (_hookEnabled : Bool) (ctx : Option FdCtx) (arg : Nat) : Nat × Option FdCtx :=
  match ctx with
  | none => (arg, none)
  | some c =>
    if c.isClosed || !c.isSocket then (arg, some c)
    else
      let c' := { c with userNonblock := arg &&& O_NONBLOCK ≠ 0 }
      let arg' := if c.sysNonblock then arg ||| O_NONBLOCK else clearBits arg O_NONBLOCK
      (arg', some c')

/--
The `F_GETFL` arm of the interposed `fcntl` (hook.cpp:708-729); again no
hook-enable check. Given the raw flags returned by `fcntl_f`, the
`O_NONBLOCK` bit shown to the caller is rewritten from `user_nonblock`
whenever a live socket context exists.
-/
def fcntlGetfl (_hookEnabled : Bool) (ctx : Option FdCtx) (rawFlags : Nat) : Nat :=
  match ctx with
  | none => rawFlags
  | some c =>
    if c.isClosed || !c.isSocket then rawFlags
    else if c.userNonblock then rawFlags ||| O_NONBLOCK
    else clearBits rawFlags O_NONBLOCK

/--
The `FIONBIO` arm of the interposed `ioctl` (hook.cpp:795-819); no
hook-enable check. Records `user_nonblock` from the argument whenever a
live socket context exists, then always forwards to the raw call.
-/
def ioctlFionbio (_hookEnabled : Bool) (ctx : Option FdCtx) (argNonzero : Bool) : Option FdCtx :=
  match ctx with
  | none => none
  | some c =>
    if c.isClosed || !c.isSocket then some c
    else some { c with userNonblock := argNonzero }

/--
`timer_info` (hook.cpp:99): the per-operation state shared between a
blocked `do_io` and its condition timer; `cancelled` is 0 until the
timer stamps `ETIMEDOUT` into it.
-/
structure TimerInfo where
  cancelled : Nat
deriving Repr, DecidableEq

/--
The condition-timer callback installed by `do_io` (hook.cpp:175-185),
including the `OnTimer` weak-pointer guard of
`TimerManager::addConditionTimer` (timer.cpp:194): when the weak
reference is dead (`none`) nothing happens; when `cancelled` is already
set nothing happens; otherwise stamp `cancelled = ETIMEDOUT` and run
`cancelEvent(fd, event)` to wake the parked fiber synthetically.
-/
def ioTimerCb (tinfo : Option TimerInfo) (st : IOMState) (ev : Nat) :
    Option TimerInfo × IOMState :=
  match tinfo with
  | none => (none, st)
  | some ti =>
    if ti.cancelled ≠ 0 then (some ti, st)
    else (some { cancelled := ETIMEDOUT }, (st.cancelEvent ev true).2)

/--
One blocked-and-resumed round of the `do_io` retry loop: the settled raw
result for the round (the `EINTR` inner loop folded into it), whether
`addEvent` succeeded, and whether the resumption was caused by the
condition timer firing (as opposed to genuine readiness).
-/
structure IoRound where
  rawRet : Int
  rawErrno : Nat
  addEventOk : Bool
  wokenByTimer : Bool
deriving Repr, DecidableEq

/--
The retry loop of `do_io` (hook.cpp:152-221) over a trace of rounds.
Per round: a non-`EAGAIN` raw result returns at once; on `EAGAIN`, a
condition timer is armed iff `timeout` is finite, the event is added
(failing that, the timer is cancelled and -1 returned); after the yield
the timer is cancelled first, then a recorded timeout returns
`(-1, ETIMEDOUT)` and otherwise the operation is retried on the rest of
the trace.  First result: `none` when the trace ran out while still
retrying; second result: for each resumption, whether a timer was
cancelled on it.
-/
def doIoRun (timeout : Nat) : List IoRound → Option (Int × Nat) × List Bool
  | [] => (none, [])
  | r :: rest =>
    if r.rawRet = -1 ∧ r.rawErrno = EAGAIN then
      let timerArmed := timeout ≠ UINT64MAX
      if r.addEventOk = false then (some (-1, r.rawErrno), [])
      else if timerArmed ∧ r.wokenByTimer then (some (-1, ETIMEDOUT), [timerArmed])
      else
        let (res, log) := doIoRun timeout rest
        (res, timerArmed :: log)
    else (some (r.rawRet, r.rawErrno), [])

/-! ## Theorems -/

/--
C3, counterexample: with `stack_size` omitted (0) the fiber constructor
allocates 128000 bytes, which is not 128 KiB = 131072 bytes.
-/
theorem c3_default_stack_not_128KiB :
    fiberStackSize 0 = 128000 ∧ fiberStackSize 0 ≠ 131072 := by
  constructor <;> decide

/--
C3 (amended): creating a fiber with the default stack size (0) allocates
exactly 128000 bytes (128 kB decimal, not 128 KiB); a caller-supplied
non-zero `stack_size` is used verbatim.
-/
theorem c3_stack_size_amended (s : Nat) :
    (s = 0 → fiberStackSize s = 128000) ∧ (s ≠ 0 → fiberStackSize s = s) := by
  constructor
  · intro h; simp [fiberStackSize, h]
  · intro h; simp [fiberStackSize, h]

/-- C3 witness: both branches of the amended statement at concrete inputs. -/
theorem c3_stack_size_amended_witness :
    fiberStackSize 0 = 128000 ∧ fiberStackSize 4096 = 4096 :=
  ⟨(c3_stack_size_amended 0).1 rfl, (c3_stack_size_amended 4096).2 (by decide)⟩

/--
C1, failing input: two distinct timers with the same period added at the
same instant have equal next-deadlines; the comparator of `timer.cpp:144`
compares `m_next` alone, so the `std::set` treats them as equivalent: the
second `addTimer` silently drops the second timer, and cancelling the
second timer locates and erases the FIRST one. This contradicts the
documented ordering (tie-break by handle identity, with both retained).
-/
theorem c1_equal_deadline_timers_collapse :
    -- start from an empty manager, add timer 1 then timer 2, both 100 ms at now = 0
    (((TimerManager.mk [] false 0).addTimer 0 1 100 10 false).1.addTimer 0 2 100 20 false).1.timers
        = [Timer.create 1 100 10 false 0]
    ∧ ((((TimerManager.mk [] false 0).addTimer 0 1 100 10 false).1.addTimer 0 2 100 20 false).2
        ∉ (((TimerManager.mk [] false 0).addTimer 0 1 100 10 false).1.addTimer 0 2 100 20 false).1.timers)
    ∧ (Timer.cancel
        ((((TimerManager.mk [] false 0).addTimer 0 1 100 10 false).1.addTimer 0 2 100 20 false).2)
        ((((TimerManager.mk [] false 0).addTimer 0 1 100 10 false).1.addTimer 0 2 100 20 false).1)).1
        = true
    ∧ (Timer.cancel
        ((((TimerManager.mk [] false 0).addTimer 0 1 100 10 false).1.addTimer 0 2 100 20 false).2)
        ((((TimerManager.mk [] false 0).addTimer 0 1 100 10 false).1.addTimer 0 2 100 20 false).1)).2.2.timers
        = [] := by
  refine ⟨?_, ?_, ?_, ?_⟩ <;> decide

/--
Helper: under a sticky rollover flag, the drain loop run on a single
recurring timer never exits by its own condition — each iteration pops
the timer, appends its callable once more, and re-inserts it.
-/
theorem listExpiredLoop_recurring_rollover_stuck (now : Int) :
    ∀ fuel (t : Timer) (acc : List (Option Nat)), t.recurring = true →
      (listExpiredLoop now true fuel [t] acc).2.2 = false
      ∧ (listExpiredLoop now true fuel [t] acc).2.1.length = acc.length + fuel := by
  intro fuel
  induction fuel with
  | zero => intro t acc _; simp [listExpiredLoop]
  | succ n ih =>
    intro t acc ht
    have hstep : listExpiredLoop now true (n + 1) [t] acc
        = listExpiredLoop now true n [{ t with next := now + msToNs t.ms }] (acc ++ [t.cb]) := by
      simp [listExpiredLoop, ht, setInsert]
    have hrec := ih { t with next := now + msToNs t.ms } (acc ++ [t.cb]) (by simpa using ht)
    rw [hstep]
    refine ⟨hrec.1, ?_⟩
    rw [hrec.2]
    simp
    omega

/--
C5, code bug: with the clock rolled back by more than one hour and a
single recurring timer in the set, `listExpiredCb` never terminates: the
loop condition `rollover || head due` stays true because every recurring
timer is re-inserted while `rollover` remains set for the whole loop, so
the same callable is appended once per iteration, without bound — for
every fuel bound the loop is still running and has appended `fuel`
copies. The spec instead describes a terminating drain that appends each
callable once.
-/
theorem c5_rollover_recurring_liveness_bug :
    ∀ fuel,
      ((TimerManager.mk [Timer.mk 1 true 100 50 (some 7)] false 10000000000000).listExpiredCb
          0 fuel).2.2 = false
      ∧ ((TimerManager.mk [Timer.mk 1 true 100 50 (some 7)] false 10000000000000).listExpiredCb
          0 fuel).2.1.length = fuel := by
  intro fuel
  have hroll : decide ((0 : Int) < (10000000000000 : Int) - msToNs 3600000) = true := by
    decide
  have := listExpiredLoop_recurring_rollover_stuck 0 fuel
    (Timer.mk 1 true 100 50 (some 7)) [] rfl
  simpa [TimerManager.listExpiredCb, TimerManager.detectClockRollover, hroll] using this

/--
Helper: when no element of the set is `m_next`-equivalent to `t`,
`std::set::insert` really inserts, so the new contents are a permutation
of `t` plus the old contents.
-/
theorem setInsert_perm_of_no_equiv (t : Timer) :
    ∀ s : List Timer, (∀ u ∈ s, timerEquiv t u = false) →
      ((setInsert t s).1).Perm (t :: s) := by
  intro s
  induction s with
  | nil => intro _; simp [setInsert]
  | cons u rest ih =>
    intro h
    by_cases hlt : timerLt t u
    · simp [setInsert, hlt]
    · have hult : timerLt u t := by
        have := h u (by simp)
        simp [timerEquiv, hlt] at this
        exact this
      have hrest := ih (fun v hv => h v (by simp [hv]))
      simp only [setInsert, hlt, hult, if_false, if_true, ite_true, ite_false]
      exact (List.Perm.cons u hrest).trans (List.Perm.swap t u rest)

/--
C10: `Timer::reset(new_ms, from_now)` returns true immediately with both
the timer and the set untouched whenever `new_ms` equals the current
period and `from_now` is false — also for cancelled or fired timers (the
short-circuit precedes the callable check); otherwise it returns false
doing nothing when the callable is null or the timer is not found, and
only otherwise it succeeds, with period `new_ms` and next-deadline
computed from `now` (if `from_now`) or from `old_next - old_period`, the
updated timer replacing the found member in the set (shown as a
permutation, provided the recomputed deadline collides with no remaining
member).
-/
theorem c10_reset_semantics (self : Timer) (m : TimerManager) (now : Int)
    (ms : Nat) (from_now : Bool) :
    (ms = self.ms ∧ from_now = false → self.reset now ms from_now m = (true, self, m))
    ∧ (¬(ms = self.ms ∧ from_now = false) → self.cb = none →
        self.reset now ms from_now m = (false, self, m))
    ∧ (¬(ms = self.ms ∧ from_now = false) → self.cb ≠ none →
        setFind self m.timers = none → self.reset now ms from_now m = (false, self, m))
    ∧ (¬(ms = self.ms ∧ from_now = false) → self.cb ≠ none →
        ∀ u, setFind self m.timers = some u →
        (self.reset now ms from_now m).1 = true
        ∧ (self.reset now ms from_now m).2.1.ms = ms
        ∧ (self.reset now ms from_now m).2.1.next
            = (if from_now then now else self.next - msToNs self.ms) + msToNs ms
        ∧ (self.reset now ms from_now m).2.1.cb = self.cb
        ∧ ((∀ v ∈ setEraseEquiv self m.timers,
              timerEquiv (self.reset now ms from_now m).2.1 v = false) →
            ((self.reset now ms from_now m).2.2.timers).Perm
              ((self.reset now ms from_now m).2.1 :: setEraseEquiv self m.timers))) := by
  refine ⟨?_, ?_, ?_, ?_⟩
  · intro h
    simp [Timer.reset, h.1, h.2]
  · intro h hcb
    unfold Timer.reset
    rw [if_neg h, if_pos hcb]
  · intro h hcb hfind
    unfold Timer.reset
    rw [if_neg h, if_neg hcb, hfind]
  · intro h hcb u hfind
    unfold Timer.reset
    rw [if_neg h, if_neg hcb, hfind]
    refine ⟨rfl, rfl, rfl, rfl, ?_⟩
    intro hnc
    simp only [TimerManager.addTimerP]
    exact setInsert_perm_of_no_equiv _ _ (by
      intro v hv
      have := hnc v hv
      simpa [Timer.reset, if_neg h, if_neg hcb, hfind] using this)

/-- C10 witness: a concrete successful reset through the main theorem. -/
theorem c10_reset_semantics_witness :
    ((Timer.mk 1 false 100 100000000 (some 3)).reset 0 200 false
        (TimerManager.mk [Timer.mk 1 false 100 100000000 (some 3)] false 0)).1 = true := by
  have h := (c10_reset_semantics (Timer.mk 1 false 100 100000000 (some 3))
      (TimerManager.mk [Timer.mk 1 false 100 100000000 (some 3)] false 0) 0 200 false).2.2.2
  exact (h (by decide) (by decide) (Timer.mk 1 false 100 100000000 (some 3)) (by decide)).1

/--
C4, counterexample: a single timer due 0.5 ms from now (next-deadline
500000 ns, now = 0) makes `getNextTimer` return 0 — the sub-millisecond
remainder is truncated away by `duration_cast<milliseconds>` — although
no timer has deadline ≤ now, refuting the claimed "returns 0 only if a
timer is already due".
-/
theorem c4_zero_without_due_timer :
    ((TimerManager.mk [Timer.mk 1 false 1 500000 (some 5)] false 0).getNextTimer 0).1 = 0
    ∧ ∀ t ∈ (TimerManager.mk [Timer.mk 1 false 1 500000 (some 5)] false 0).timers,
        ¬(t.next ≤ 0) := by
  constructor <;> decide

/-- The manager returned by `getNextTimer` is always the input with `m_tickled` cleared. -/
theorem getNextTimer_snd (m : TimerManager) (now : Int) :
    (m.getNextTimer now).2 = { m with tickled := false } := by
  cases hm : m.timers with
  | nil => simp [TimerManager.getNextTimer, hm]
  | cons t rest =>
    by_cases hd : t.next ≤ now <;> simp [TimerManager.getNextTimer, hm, hd]

/-- Unfolding the `getNextTimer` result on an empty timer set. -/
theorem getNextTimer_fst_nil (m : TimerManager) (now : Int)
    (hm : m.timers = []) :
    (m.getNextTimer now).1 = UINT64MAX := by
  simp [TimerManager.getNextTimer, hm]

/-- Unfolding the `getNextTimer` result when the head timer is already due. -/
theorem getNextTimer_fst_due (m : TimerManager) (now : Int) (t : Timer)
    (rest : List Timer) (hm : m.timers = t :: rest) (hd : t.next ≤ now) :
    (m.getNextTimer now).1 = 0 := by
  simp [TimerManager.getNextTimer, hm, hd]

/-- Unfolding the `getNextTimer` result when the head timer is still pending. -/
theorem getNextTimer_fst_wait (m : TimerManager) (now : Int) (t : Timer)
    (rest : List Timer) (hm : m.timers = t :: rest) (hd : ¬ t.next ≤ now) :
    (m.getNextTimer now).1 = (t.next - now).toNat / 1000000 := by
  simp [TimerManager.getNextTimer, hm, hd]

/--
C4 (amended): `getNextTimer` clears the tickled flag on every call;
returns the `~0ull` sentinel iff the timer set is empty; returns 0 iff
some timer's deadline lies strictly before `now + 1 ms` (which includes
every already-due timer but also timers due in under a millisecond); and
otherwise returns the whole-millisecond floor of the time until the
earliest deadline. Hypotheses: the set is in comparator order, and each
deadline is within the `int64` nanosecond range of `now`, as
`std::chrono` arithmetic guarantees.
-/
theorem c4_get_next_timer_amended (m : TimerManager) (now : Int)
    (hsorted : m.timers.Pairwise (fun a b => a.next ≤ b.next))
    (hrange : ∀ t ∈ m.timers, t.next - now < 9223372036854775808) :
    ((m.getNextTimer now).2.tickled = false)
    ∧ ((m.getNextTimer now).1 = UINT64MAX ↔ m.timers = [])
    ∧ ((m.getNextTimer now).1 = 0 ↔ ∃ t ∈ m.timers, t.next < now + 1000000)
    ∧ (∀ t, m.timers.head? = some t → now < t.next →
        msToNs (m.getNextTimer now).1 ≤ t.next - now
        ∧ t.next - now < msToNs ((m.getNextTimer now).1 + 1)) := by
  refine ⟨?_, ?_, ?_, ?_⟩
  · rw [getNextTimer_snd m now]
  · cases hm : m.timers with
    | nil =>
      rw [getNextTimer_fst_nil m now hm]
      simp
    | cons t rest =>
      have ht := hrange t (by rw [hm]; exact List.mem_cons_self t rest)
      by_cases hd : t.next ≤ now
      · rw [getNextTimer_fst_due m now t rest hm hd]
        constructor
        · intro h; exact absurd h (by decide)
        · intro h; cases h
      · rw [getNextTimer_fst_wait m now t rest hm hd]
        constructor
        · intro h
          exfalso
          simp only [UINT64MAX] at h
          omega
        · intro h; cases h
  · cases hm : m.timers with
    | nil =>
      rw [getNextTimer_fst_nil m now hm]
      constructor
      · intro h; exact absurd h (by decide)
      · rintro ⟨u, hu, _⟩
        exact absurd hu (List.not_mem_nil u)
    | cons t rest =>
      by_cases hd : t.next ≤ now
      · rw [getNextTimer_fst_due m now t rest hm hd]
        constructor
        · intro _
          exact ⟨t, List.mem_cons_self t rest, by omega⟩
        · intro _; rfl
      · rw [getNextTimer_fst_wait m now t rest hm hd]
        constructor
        · intro h
          refine ⟨t, List.mem_cons_self t rest, ?_⟩
          omega
        · rintro ⟨u, hu, hlt⟩
          rw [hm] at hsorted
          rcases List.mem_cons.mp hu with rfl | hmem
          · omega
          · have hle : t.next ≤ u.next := (List.pairwise_cons.mp hsorted).1 u hmem
            omega
  · intro t ht hnow
    have hm : ∃ rest, m.timers = t :: rest := by
      cases hmm : m.timers with
      | nil => rw [hmm] at ht; cases ht
      | cons a b =>
        rw [hmm] at ht
        simp only [List.head?_cons, Option.some_inj] at ht
        exact ⟨b, by rw [ht]⟩
    obtain ⟨rest, hm⟩ := hm
    have hd : ¬ t.next ≤ now := not_le.mpr hnow
    rw [getNextTimer_fst_wait m now t rest hm hd]
    simp only [msToNs]
    constructor
    · have h1 := Nat.div_mul_le_self (t.next - now).toNat 1000000
      omega
    · have h1 := Nat.div_add_mod (t.next - now).toNat 1000000
      have h2 : (t.next - now).toNat % 1000000 < 1000000 := Nat.mod_lt _ (by omega)
      omega

/--
C4 witness: the amended theorem at a singleton set holding one timer due
in exactly 250 ms, at now = 0.
-/
theorem c4_get_next_timer_amended_witness :
    (((TimerManager.mk [Timer.mk 1 false 250 250000000 (some 2)] true 0).getNextTimer 0).1 = 0
      ↔ ∃ t ∈ (TimerManager.mk [Timer.mk 1 false 250 250000000 (some 2)] true 0).timers,
          t.next < 0 + 1000000) :=
  (c4_get_next_timer_amended (TimerManager.mk [Timer.mk 1 false 250 250000000 (some 2)] true 0)
    0 (by simp) (by intro t htm; fin_cases htm; decide)).2.2.1

/-- Helper: `addEvent` preserves the slot/bitset agreement and well-formedness. -/
theorem addEvent_pres (st : IOMState) (ev : Nat) (cb : Option Nat) (cs cf : Nat)
    (ep : Bool) (hev : ev = EV_READ ∨ ev = EV_WRITE) (hwf : eventsWF st)
    (hinv : eventsSlotsAgree st) :
    eventsSlotsAgree (st.addEvent ev cb cs cf ep).2
    ∧ eventsWF (st.addEvent ev cb cs cf ep).2 := by
  obtain ⟨hr, hw⟩ := hinv
  rcases hev with rfl | rfl <;>
    rcases hwf with h | h | h | h <;>
    cases ep <;>
    cases cb <;>
    simp_all [IOMState.addEvent, FdContext.setCtx, FdContext.getCtx,
      EventContext.isPopulated, eventsSlotsAgree, eventsWF, EV_READ, EV_WRITE]

/-- Helper: `triggerEvent` on an armed event preserves agreement and well-formedness. -/
theorem triggerEvent_pres (st : IOMState) (ev : Nat)
    (hev : ev = EV_READ ∨ ev = EV_WRITE) (hwf : eventsWF st)
    (hinv : eventsSlotsAgree st) (harmed : st.ctx.events &&& ev ≠ 0) :
    eventsSlotsAgree (st.triggerEvent ev) ∧ eventsWF (st.triggerEvent ev) := by
  obtain ⟨hr, hw⟩ := hinv
  rcases hev with rfl | rfl <;>
    rcases hwf with h | h | h | h <;>
    simp_all [IOMState.triggerEvent, FdContext.setCtx, FdContext.getCtx,
      EventContext.isPopulated, EventContext.empty, eventsSlotsAgree, eventsWF,
      clearBits, EV_READ, EV_WRITE] <;> decide

/-- Helper: `delEvent` preserves agreement and well-formedness. -/
theorem delEvent_pres (st : IOMState) (ev : Nat) (ep : Bool)
    (hev : ev = EV_READ ∨ ev = EV_WRITE) (hwf : eventsWF st)
    (hinv : eventsSlotsAgree st) :
    eventsSlotsAgree (st.delEvent ev ep).2 ∧ eventsWF (st.delEvent ev ep).2 := by
  obtain ⟨hr, hw⟩ := hinv
  rcases hev with rfl | rfl <;>
    rcases hwf with h | h | h | h <;>
    cases ep <;>
    simp_all [IOMState.delEvent, FdContext.setCtx, FdContext.getCtx,
      EventContext.isPopulated, EventContext.empty, eventsSlotsAgree, eventsWF,
      clearBits, EV_READ, EV_WRITE] <;> decide

/-- Helper: `cancelEvent` preserves agreement and well-formedness. -/
theorem cancelEvent_pres (st : IOMState) (ev : Nat) (ep : Bool)
    (hev : ev = EV_READ ∨ ev = EV_WRITE) (hwf : eventsWF st)
    (hinv : eventsSlotsAgree st) :
    eventsSlotsAgree (st.cancelEvent ev ep).2 ∧ eventsWF (st.cancelEvent ev ep).2 := by
  obtain ⟨hr, hw⟩ := hinv
  rcases hev with rfl | rfl <;>
    rcases hwf with h | h | h | h <;>
    cases ep <;>
    simp_all [IOMState.cancelEvent, IOMState.triggerEvent, FdContext.setCtx,
      FdContext.getCtx, EventContext.isPopulated, EventContext.empty,
      eventsSlotsAgree, eventsWF, clearBits, EV_READ, EV_WRITE] <;> decide

/-- Helper: `cancelAll` preserves agreement and well-formedness. -/
theorem cancelAll_pres (st : IOMState) (ep : Bool) (hwf : eventsWF st)
    (hinv : eventsSlotsAgree st) :
    eventsSlotsAgree (st.cancelAll ep).2 ∧ eventsWF (st.cancelAll ep).2 := by
  obtain ⟨hr, hw⟩ := hinv
  rcases hwf with h | h | h | h <;>
    cases ep <;>
    simp_all [IOMState.cancelAll, IOMState.triggerEvent, FdContext.setCtx,
      FdContext.getCtx, EventContext.isPopulated, EventContext.empty,
      eventsSlotsAgree, eventsWF, clearBits, EV_READ, EV_WRITE]

/--
C6: after any completed `addEvent`, `delEvent`, `cancelEvent`,
`cancelAll` or `triggerEvent` (the latter under its armed-event
precondition), the READ bit of the `events` bitset is set iff the read
slot is populated (scheduler plus fiber-or-callback), and likewise for
the WRITE bit — whatever the outcome of the facility update.
-/
theorem c6_events_bitset_reflects_slots (st : IOMState) (ev : Nat) (cb : Option Nat)
    (cs cf : Nat) (ep : Bool) (hev : ev = EV_READ ∨ ev = EV_WRITE)
    (hwf : eventsWF st) (hinv : eventsSlotsAgree st) :
    eventsSlotsAgree (st.addEvent ev cb cs cf ep).2
    ∧ eventsSlotsAgree (st.delEvent ev ep).2
    ∧ eventsSlotsAgree (st.cancelEvent ev ep).2
    ∧ eventsSlotsAgree (st.cancelAll ep).2
    ∧ (st.ctx.events &&& ev ≠ 0 → eventsSlotsAgree (st.triggerEvent ev)) :=
  ⟨(addEvent_pres st ev cb cs cf ep hev hwf hinv).1,
   (delEvent_pres st ev ep hev hwf hinv).1,
   (cancelEvent_pres st ev ep hev hwf hinv).1,
   (cancelAll_pres st ep hwf hinv).1,
   fun h => (triggerEvent_pres st ev hev hwf hinv h).1⟩

/--
C6 witness: the invariant after adding a WRITE event to a state whose
READ event is armed.
-/
theorem c6_events_bitset_reflects_slots_witness :
    eventsSlotsAgree
      ((IOMState.mk (FdContext.mk 1 (EventContext.mk (some 1) (some 2) none)
          EventContext.empty) 1 (some 2147483649) []).addEvent EV_WRITE none 3 4 true).2 :=
  (c6_events_bitset_reflects_slots
    (IOMState.mk (FdContext.mk 1 (EventContext.mk (some 1) (some 2) none)
      EventContext.empty) 1 (some 2147483649) [])
    EV_WRITE none 3 4 true (Or.inr rfl) (by unfold eventsWF; decide)
    (by unfold eventsSlotsAgree EventContext.isPopulated; decide)).1

/-- Helper: a successful `addEvent` ORs the event bit into the bitset. -/
theorem addEvent_success_events (st : IOMState) (ev : Nat) (cb : Option Nat)
    (cs cf : Nat) (ep : Bool) (h : (st.addEvent ev cb cs cf ep).1 = 0) :
    (st.addEvent ev cb cs cf ep).2.ctx.events = st.ctx.events ||| ev := by
  by_cases h1 : st.ctx.events &&& ev ≠ 0
  · simp [IOMState.addEvent, h1] at h
  · by_cases h2 : ep = false
    · simp [IOMState.addEvent, h1, h2] at h
    · cases cb <;> simp [IOMState.addEvent, h1, h2]

/--
C7: a second `addEvent` for the same fd and event, with no intervening
fire, delete or cancel of that event, returns -1 and leaves the whole
state — bitset, both slots, facility registration, pending counter —
exactly as the first call left it.
-/
theorem c7_add_event_twice_rejected (st st₁ : IOMState) (ev : Nat)
    (cb cb₂ : Option Nat) (cs cf cs₂ cf₂ : Nat) (ep₂ : Bool)
    (hev : ev = EV_READ ∨ ev = EV_WRITE) (hwf : eventsWF st)
    (h : st.addEvent ev cb cs cf true = (0, st₁)) :
    st₁.addEvent ev cb₂ cs₂ cf₂ ep₂ = (-1, st₁) := by
  have hfst : (st.addEvent ev cb cs cf true).1 = 0 := by rw [h]
  have hsnd : st₁ = (st.addEvent ev cb cs cf true).2 := by rw [h]
  have he : st₁.ctx.events = st.ctx.events ||| ev := by
    rw [hsnd, addEvent_success_events st ev cb cs cf true hfst]
  have hbit : st₁.ctx.events &&& ev ≠ 0 := by
    rcases hev with rfl | rfl <;> rcases hwf with hw | hw | hw | hw <;>
      rw [he, hw] <;> decide
  simp [IOMState.addEvent, hbit]

/-- C7 witness: arming READ twice on an initially idle descriptor. -/
theorem c7_add_event_twice_rejected_witness :
    (((IOMState.mk (FdContext.mk 0 EventContext.empty EventContext.empty) 0 none
        []).addEvent EV_READ none 3 4 true).2.addEvent EV_READ (some 9) 5 6 true
      = (-1, ((IOMState.mk (FdContext.mk 0 EventContext.empty EventContext.empty) 0 none
        []).addEvent EV_READ none 3 4 true).2)) :=
  c7_add_event_twice_rejected
    (IOMState.mk (FdContext.mk 0 EventContext.empty EventContext.empty) 0 none [])
    ((IOMState.mk (FdContext.mk 0 EventContext.empty EventContext.empty) 0 none
        []).addEvent EV_READ none 3 4 true).2
    EV_READ none (some 9) 3 4 5 6 true (Or.inl rfl) (Or.inl rfl) (by decide)

/--
C8: `delEvent` returns true iff the event was armed; when it was not, the
state is untouched; when it was (and the facility update succeeds), the
event's slot is cleared without scheduling anything, the pending counter
is decremented, the event's bit is cleared and the other direction's bit
is unchanged; hence `addEvent` then `delEvent` restores the `events`
bitset exactly.
-/
theorem c8_del_event_roundtrip (st : IOMState) (ev : Nat)
    (hev : ev = EV_READ ∨ ev = EV_WRITE) (hwf : eventsWF st) :
    ((st.delEvent ev true).1 = true ↔ st.ctx.events &&& ev ≠ 0)
    ∧ (st.ctx.events &&& ev = 0 → st.delEvent ev true = (false, st))
    ∧ (st.ctx.events &&& ev ≠ 0 →
        (st.delEvent ev true).2.ctx.getCtx ev = EventContext.empty
        ∧ (st.delEvent ev true).2.scheduled = st.scheduled
        ∧ (st.delEvent ev true).2.pending = st.pending - 1
        ∧ (st.delEvent ev true).2.ctx.events &&& ev = 0
        ∧ (st.delEvent ev true).2.ctx.events &&& otherEvent ev
            = st.ctx.events &&& otherEvent ev)
    ∧ (∀ cb cs cf st₁, st.addEvent ev cb cs cf true = (0, st₁) →
        (st₁.delEvent ev true).2.ctx.events = st.ctx.events) := by
  refine ⟨?_, ?_, ?_, ?_⟩
  · by_cases hb : st.ctx.events &&& ev = 0
    · simp [IOMState.delEvent, hb]
    · simp [IOMState.delEvent, hb]
  · intro hb
    simp [IOMState.delEvent, hb]
  · intro hb
    rcases hev with rfl | rfl <;> rcases hwf with hw | hw | hw | hw <;>
      simp_all [IOMState.delEvent, FdContext.setCtx, FdContext.getCtx,
        otherEvent, clearBits, EV_READ, EV_WRITE] <;> decide
  · intro cb cs cf st₁ h
    have hfst : (st.addEvent ev cb cs cf true).1 = 0 := by rw [h]
    have hsnd : st₁ = (st.addEvent ev cb cs cf true).2 := by rw [h]
    have he : st₁.ctx.events = st.ctx.events ||| ev := by
      rw [hsnd, addEvent_success_events st ev cb cs cf true hfst]
    have hb0 : st.ctx.events &&& ev = 0 := by
      by_contra hb
      simp [IOMState.addEvent, hb] at h
    have hbit : st₁.ctx.events &&& ev ≠ 0 := by
      rcases hev with rfl | rfl <;> rcases hwf with hw | hw | hw | hw <;>
        rw [he, hw] <;> decide
    have hdel : (st₁.delEvent ev true).2.ctx.events = clearBits st₁.ctx.events ev := by
      simp [IOMState.delEvent, hbit]
    rw [hdel, he]
    rcases hev with rfl | rfl <;> rcases hwf with hw | hw | hw | hw <;>
      rw [hw] at hb0 ⊢ <;> revert hb0 <;> decide

/-- C8 witness: the round-trip clauses on an idle descriptor. -/
theorem c8_del_event_roundtrip_witness :
    ((IOMState.mk (FdContext.mk 0 EventContext.empty EventContext.empty) 0 none
      []).delEvent EV_READ true).1 = true
      ↔ (IOMState.mk (FdContext.mk 0 EventContext.empty EventContext.empty) 0 none
        []).ctx.events &&& EV_READ ≠ 0 :=
  (c8_del_event_roundtrip
    (IOMState.mk (FdContext.mk 0 EventContext.empty EventContext.empty) 0 none [])
    EV_READ (Or.inl rfl) (Or.inl rfl)).1

/--
C2, counterexample: the interposed `fcntl` performs no hook-enable
check. With the hook DISABLED, `fcntl(F_SETFL, O_NONBLOCK)` on a live
socket with `sys_nonblock = false` strips `O_NONBLOCK` from the flags
handed to the raw syscall and records `user_nonblock = true` in the
FdContext — neither bit-identical to the raw call nor free of state
change.
-/
theorem c2_fcntl_ignores_hook_flag :
    (fcntlSetfl false (some (FdCtx.mk true false false false UINT64MAX UINT64MAX))
        O_NONBLOCK).1 ≠ O_NONBLOCK
    ∧ (fcntlSetfl false (some (FdCtx.mk true false false false UINT64MAX UINT64MAX))
        O_NONBLOCK).2 ≠ some (FdCtx.mk true false false false UINT64MAX UINT64MAX) := by
  constructor <;> decide

/--
C2 (amended): with the hook flag false, the `do_io` family, the sleep
family, `connect` and `setsockopt` pass through to the raw syscall with
no state change; `do_io` additionally passes through when no FdContext
exists, the fd is not a socket, or the user explicitly set non-blocking.
`fcntl` and `ioctl` are excluded: they never consult the hook flag.
-/
theorem c2_hook_disabled_passthrough_amended (ctx : Option FdCtx) (tso : Nat)
    (sec usec lvl opt : Nat) (c : FdCtx) :
    doIoDispatch false ctx tso = DoIoAction.passRaw
    ∧ sleepHook false sec = SleepBehavior.raw
    ∧ usleepHook false usec = SleepBehavior.raw
    ∧ nanosleepHook false sec usec = SleepBehavior.raw
    ∧ connectDispatch false ctx = ConnectAction.passRaw
    ∧ setsockoptHook false lvl opt ctx sec usec = ctx
    ∧ doIoDispatch true none tso = DoIoAction.passRaw
    ∧ (c.isClosed = false → c.isSocket = false →
        doIoDispatch true (some c) tso = DoIoAction.passRaw)
    ∧ (c.isClosed = false → c.userNonblock = true →
        doIoDispatch true (some c) tso = DoIoAction.passRaw) := by
  refine ⟨?_, rfl, rfl, rfl, ?_, ?_, rfl, ?_, ?_⟩
  · simp [doIoDispatch]
  · simp [connectDispatch]
  · simp [setsockoptHook]
  · intro h1 h2
    simp [doIoDispatch, h1, h2]
  · intro h1 h2
    simp [doIoDispatch, h1, h2]

/-- C2 witness: the pass-through clauses at a concrete live socket context. -/
theorem c2_hook_disabled_passthrough_amended_witness :
    doIoDispatch true (some (FdCtx.mk true true true false 50 60)) SO_RCVTIMEO
      = DoIoAction.passRaw :=
  (c2_hook_disabled_passthrough_amended (some (FdCtx.mk true true true false 50 60))
    SO_RCVTIMEO 1 2 3 4 (FdCtx.mk true true true false 50 60)).2.2.2.2.2.2.2.2
    rfl rfl

/--
C9: in the managed `do_io` path with a finite timeout, when the
condition timer fires it stamps `cancelled = ETIMEDOUT` in the shared
state and synthetically cancels the armed event (scheduling the parked
party); a resumption caused by the timer makes the operation return -1
with errno `ETIMEDOUT`; on every resumption the timer is cancelled
first; a resumption without a recorded timeout retries the raw
operation instead of returning.
-/
theorem c9_do_io_timeout_semantics (timeout : Nat) (r : IoRound) (rest : List IoRound)
    (st : IOMState) (ev : Nat) (htimeout : timeout ≠ UINT64MAX)
    (hret : r.rawRet = -1) (herr : r.rawErrno = EAGAIN) (hok : r.addEventOk = true) :
    (r.wokenByTimer = true →
        doIoRun timeout (r :: rest) = (some (-1, ETIMEDOUT), [true]))
    ∧ (r.wokenByTimer = false →
        (doIoRun timeout (r :: rest)).1 = (doIoRun timeout rest).1
        ∧ (doIoRun timeout (r :: rest)).2 = true :: (doIoRun timeout rest).2)
    ∧ ((ev = EV_READ ∨ ev = EV_WRITE) → eventsWF st → st.ctx.events &&& ev ≠ 0 →
        (ioTimerCb (some (TimerInfo.mk 0)) st ev).1 = some (TimerInfo.mk ETIMEDOUT)
        ∧ (ioTimerCb (some (TimerInfo.mk 0)) st ev).2.ctx.events &&& ev = 0
        ∧ (ioTimerCb (some (TimerInfo.mk 0)) st ev).2.scheduled
            = st.scheduled ++ [partyOf (st.ctx.getCtx ev)]) := by
  refine ⟨?_, ?_, ?_⟩
  · intro hw
    simp [doIoRun, hret, herr, hok, htimeout, hw]
  · intro hw
    constructor <;> simp [doIoRun, hret, herr, hok, htimeout, hw]
  · intro hev hwf harm
    have hcb : ioTimerCb (some (TimerInfo.mk 0)) st ev
        = (some (TimerInfo.mk ETIMEDOUT), (st.cancelEvent ev true).2) := by
      simp [ioTimerCb, ETIMEDOUT]
    refine ⟨by rw [hcb], ?_, ?_⟩
    · rw [hcb]
      rcases hev with rfl | rfl <;> rcases hwf with hwv | hwv | hwv | hwv <;>
        simp_all [IOMState.cancelEvent, IOMState.triggerEvent, FdContext.setCtx,
          clearBits, EV_READ, EV_WRITE] <;> decide
    · rw [hcb]
      simp [IOMState.cancelEvent, IOMState.triggerEvent, harm]

/--
C9 witness: a blocked round woken by the condition timer returns
`(-1, ETIMEDOUT)` and cancels the timer on resumption.
-/
theorem c9_do_io_timeout_semantics_witness :
    doIoRun 50 [IoRound.mk (-1) 11 true true] = (some (-1, ETIMEDOUT), [true]) :=
  (c9_do_io_timeout_semantics 50 (IoRound.mk (-1) 11 true true) []
    (IOMState.mk (FdContext.mk 0 EventContext.empty EventContext.empty) 0 none [])
    EV_READ (by decide) rfl rfl rfl).1 rfl

end Mycoroutine
